import Mathlib

/-!
Verification of the Python project-scaffolding script (`src/python.py`).

The script holds one configuration object (`PythonProject`) and performs a
fixed sequence of filesystem writes and external-tool invocations.  This file
gives a shallow embedding of that code:

* filesystem paths are lists of segments (`FsPath`), files an association
  list from path to content (`FileMap`), directories a list of paths;
* external processes are an environment function from argument vector and
  working directory to an exit code plus output texts (`ProcOut`);
* Python string operations used by the script (`str.lower`, single-character
  `str.replace`, truthiness of `str | None`) are modelled character-wise;
* the entry-point sequence is a fold over the seven steps, aborting at the
  first failure, mirroring exception propagation out of `__main__`.
-/

namespace ProjectInit

/-- Filesystem paths, modelled as a list of path segments. -/
abbrev FsPath := List String

/-- Python `str(path)`: segments joined by `/`. -/
def FsPath.render (p : FsPath) : String :=
  String.intercalate "/" p

/-- Character-wise embedding of Python `str.lower` (ASCII fragment):
uppercase letters are shifted by 32, all other characters kept. -/
def pyCharLower (c : Char) : Char :=
  if 65 ≤ c.toNat ∧ c.toNat ≤ 90 then Char.ofNat (c.toNat + 32) else c

/-- Python `str.lower`, applied character by character. -/
def pyLower (s : String) : String :=
  String.mk (s.data.map pyCharLower)

/-- Python `str.replace(old, new)` for a single-character pattern, which
replaces every occurrence of the character `c` by `r`. -/
def pyReplaceChar (c r : Char) (s : String) : String :=
  String.mk (s.data.map (fun x => if x = c then r else x))

/-- Python truthiness of an `str | None` value: `None` and the empty string
are falsy, every other string is truthy. -/
def pyTruthyOptStr (s : Option String) : Bool :=
  match s with
  | some t => decide (t ≠ "")
  | none => false

/-- The configuration object of the script (`class PythonProject`), with the
fields `name`, `description`, `parent_path` and `type` of `src/python.py`
lines 21-37.  Defaults are applied by the argument-parsing boundary
(`parseCliArgs` below). -/
structure PythonProject where
  name : String
  description : Option String
  parent_path : FsPath
  type : String
deriving DecidableEq

/-- Embeds `_underscored_name` (line 39-40): `name.replace(" ", "_").lower()`. -/
def PythonProject._underscored_name (p : PythonProject) : String :=
  pyLower (pyReplaceChar ' ' '_' p.name)

/-- Embeds `_dashed_name` (line 42-43): `name.replace(" ", "-").lower()`. -/
def PythonProject._dashed_name (p : PythonProject) : String :=
  pyLower (pyReplaceChar ' ' '-' p.name)

/-- Embeds `_project_path` (line 45-46): `parent_path / dashed_name`. -/
def PythonProject._project_path (p : PythonProject) : FsPath :=
  p.parent_path ++ [p._dashed_name]

/-- Embeds `_pyproject_toml_path` (line 51-52): `project_path / "pyproject.toml"`. -/
def PythonProject._pyproject_toml_path (p : PythonProject) : FsPath :=
  p._project_path ++ ["pyproject.toml"]

/-- Files of the filesystem: an association list from path to content.
A write shadows earlier entries for the same path. -/
abbrev FileMap := List (FsPath × String)

/-- Content of the file at `p`, `none` when no such file exists. -/
def readFile (fs : FileMap) (p : FsPath) : Option String :=
  (fs.find? (fun e => decide (e.1 = p))).map Prod.snd

/-- `path.write_text(c)` / file creation: the new entry shadows older ones. -/
def writeFile (fs : FileMap) (p : FsPath) (c : String) : FileMap :=
  (p, c) :: fs

/-- Embeds `_append_to_file` (lines 54-60): opening in append mode creates the
file when missing (content starts from the empty string), and writes
`"\n" + content` after the existing content. -/
def PythonProject._append_to_file (p : PythonProject) (fs : FileMap)
    (file_path : FsPath) (content : String) : FileMap :=
  writeFile fs file_path ((readFile fs file_path).getD "" ++ ("\n" ++ content))

/-- Embeds `configure_ruff` (lines 173-178).  The template text read from
`files/ruff.toml` is passed as the parameter `ruff_config_string`; the
template's content is out of scope for the script itself. -/
def PythonProject.configure_ruff (p : PythonProject) (fs : FileMap)
    (ruff_config_string : String) : FileMap :=
  p._append_to_file fs p._pyproject_toml_path ruff_config_string

/-- Embeds `update_readme` (lines 180-186): writes `README.md` in the project
directory with `# {name}\n` followed, when the description is truthy, by
`{description}\n`. -/
def PythonProject.update_readme (p : PythonProject) (fs : FileMap) : FileMap :=
  writeFile fs (p._project_path ++ ["README.md"])
    (if pyTruthyOptStr p.description then
      "# " ++ p.name ++ "\n" ++ (p.description.getD "" ++ "\n")
    else
      "# " ++ p.name ++ "\n")

/-- Embeds `create_gitignore` (lines 157-171).  The text fetched from the
fixed URL is passed as the parameter `template`; the script prepends its
custom Mac OS block and writes the result to `.gitignore`. -/
def PythonProject.create_gitignore (p : PythonProject) (fs : FileMap)
    (template : String) : FileMap :=
  writeFile fs (p._project_path ++ [".gitignore"])
    ("# Mac OS\n.DS_Store\n\n" ++ template)

/-- All ancestor directories of a path, innermost last, the path itself
included: for `[a, b]` this is `[[a], [a, b]]`. -/
def ancestors (p : FsPath) : List FsPath :=
  (List.range p.length).map (fun n => p.take (n + 1))

/-- Directories created by `Path.mkdir(parents=True, ...)` on top of `dirs`:
every missing ancestor of `p`, and `p` itself, is added. -/
def afterMkdir (dirs : List FsPath) (p : FsPath) : List FsPath :=
  dirs ++ (ancestors p).filter (fun q => decide (q ∉ dirs))

/-- Embeds `Path.mkdir(parents, exist_ok)` over a directory set: an existing
target errors unless `exist_ok`; a missing target is created, together with
its missing ancestors when `parents`, and errors when `parents` is false and
the immediate parent is missing. -/
def mkdir (dirs : List FsPath) (p : FsPath) (parents exist_ok : Bool) :
    Except String (List FsPath) :=
  if p ∈ dirs then
    if exist_ok then .ok dirs else .error "FileExistsError"
  else if parents then
    .ok (afterMkdir dirs p)
  else if p.dropLast = [] ∨ p.dropLast ∈ dirs then
    .ok (dirs ++ [p])
  else
    .error "FileNotFoundError"

/-- Embeds `create_project_folder` (lines 103-106):
`project_path.mkdir(parents=True, exist_ok=True)`. -/
def PythonProject.create_project_folder (p : PythonProject)
    (dirs : List FsPath) : Except String (List FsPath) :=
  mkdir dirs p._project_path true true

/-- The directory set `dirs` is closed under taking ancestors, the invariant
every real filesystem maintains. -/
def dirClosed (dirs : List FsPath) : Prop :=
  ∀ q ∈ dirs, ∀ r ∈ ancestors q, r ∈ dirs

/-- Where a stream of `subprocess.run` is directed: `DEVNULL` (suppressed,
the default in `_run`), `PIPE` (captured), or inherited. -/
inductive StreamMode
  | devnull
  | pipe
  | inherit
deriving DecidableEq

/-- Behaviour of one external process execution: its exit code and the text
it produces on standard output and standard error. -/
structure ProcOut where
  exitCode : Nat
  outText : String
  errText : String
deriving DecidableEq

/-- An element of the `command` list of `_run`: a `str` or a `Path`. -/
abbrev RunArg := Sum String FsPath

/-- The `str(value)` coercion `_run` applies to each command element. -/
def runArgStr (a : RunArg) : String :=
  match a with
  | .inl s => s
  | .inr q => q.render

/-- What `subprocess` hands back for one stream: the produced text when the
stream was `PIPE`, nothing otherwise. -/
def captureStream (mode : StreamMode) (text : String) : Option String :=
  match mode with
  | .pipe => some text
  | _ => none

/-- Observable outcome of one `_run` call: the argument vector and working
directory passed to the process, the exit code, the captured streams of the
`CompletedProcess`/`CalledProcessError`, whether a `CalledProcessError`
propagated to the caller, and what was logged on the way out. -/
structure RunOutcome where
  argv : List String
  usedCwd : FsPath
  exitCode : Nat
  capturedOut : Option String
  capturedErr : Option String
  raised : Bool
  logged : List String
deriving DecidableEq

/-- Embeds `_run` (lines 62-101) against a process environment `exec`.  The
command elements are coerced with `str`, the working directory is `cwd or
self._project_path()`, and when `check` holds and the exit code is non-zero
the captured standard output and standard error are logged when truthy and
the `CalledProcessError` is re-raised. -/
def PythonProject._run (p : PythonProject)
    (exec : List String → FsPath → ProcOut) (command : List RunArg)
    (stdout : StreamMode) (stderr : StreamMode) (cwd : Option FsPath)
    (check : Bool) : RunOutcome :=
  let argv := command.map runArgStr
  let wd := cwd.getD p._project_path
  let res := exec argv wd
  let capturedOut := captureStream stdout res.outText
  let capturedErr := captureStream stderr res.errText
  let failed := check && (res.exitCode != 0)
  ⟨argv, wd, res.exitCode, capturedOut, capturedErr, failed,
    if failed then
      (if pyTruthyOptStr capturedOut then
        ["Standard output: " ++ capturedOut.getD ""] else []) ++
      (if pyTruthyOptStr capturedErr then
        ["Standard error: " ++ capturedErr.getD ""] else [])
    else []⟩

/-- Embeds the `command` list built by `initialize_uv` (lines 122-137):
`["uv", "init", dashed_name, "--author-from", "git"]`, then `--{type}` when
`type` is truthy, then `--description {description}` when the description is
truthy. -/
def PythonProject.initialize_uv_command (p : PythonProject) : List String :=
  ["uv", "init", p._dashed_name, "--author-from", "git"]
    ++ (if p.type = "" then [] else ["--" ++ p.type])
    ++ (if pyTruthyOptStr p.description then
      ["--description", p.description.getD ""] else [])

/-- Embeds `initialize_uv` (lines 122-138): runs its command through `_run`
with `cwd=self._project_path().parent` and the other defaults. -/
def PythonProject.initialize_uv (p : PythonProject)
    (exec : List String → FsPath → ProcOut) : RunOutcome :=
  p._run exec (p.initialize_uv_command.map Sum.inl) .devnull .devnull
    (some p._project_path.dropLast) true

/-- The seven steps of the `__main__` block (lines 189-199). -/
inductive Step
  | initUv
  | initGit
  | createGitignore
  | installDevDeps
  | configurePrecommit
  | configureRuff
  | updateReadme
deriving DecidableEq

/-- The fixed order of the `__main__` block: `initialize_uv`,
`initialize_git`, `create_gitignore`, `install_development_dependencies`,
`configure_precommit`, `configure_ruff`, `update_readme`. -/
def mainSequence : List Step :=
  [.initUv, .initGit, .createGitignore, .installDevDeps, .configurePrecommit,
    .configureRuff, .updateReadme]

/-- Runs a list of steps in order against an environment giving, for each
step, the exit code of the first failing external tool it invokes (`0` when
all of the step's invocations succeed).  A non-zero code makes the step raise
(`subprocess.run(check=True)`), which stops the sequence; the uncaught
exception terminates the interpreter with process exit code 1.  Returns the
attempted steps and the process exit code. -/
def runSteps (env : Step → Nat) : List Step → List Step × Nat
  | [] => ([], 0)
  | s :: rest =>
    if env s ≠ 0 then ([s], 1)
    else
      let r := runSteps env rest
      (s :: r.1, r.2)

/-- The `__main__` block: the seven steps in their fixed order. -/
def runMain (env : Step → Nat) : List Step × Nat :=
  runSteps env mainSequence

/-- Command-line-style input at the process boundary: each field either
provided or absent. -/
structure RawArgs where
  name : Option String
  description : Option String
  parent_path : Option FsPath
  type : Option String
deriving DecidableEq

/-- Embeds the pydantic-settings boundary of `PythonProject` (lines 21-37):
`name` is required (`cli_enforce_required=True`), `description` defaults to
`None`, `parent_path` to `~/Developer`, `type` to `"app"`.  The fields are
plain `str` fields: no constraint checks that `name` is non-empty, and the
`choices` entry for `type` lives in `json_schema_extra`, which is schema
metadata only and takes no part in validation. -/
def parseCliArgs (a : RawArgs) : Except String PythonProject :=
  match a.name with
  | none => .error "the following arguments are required: name"
  | some n =>
      .ok ⟨n, a.description, a.parent_path.getD ["~", "Developer"],
        a.type.getD "app"⟩

/-- The spec's description of the hyphenated form: the name lowercased, with
every space replaced by a hyphen. -/
def specDashedName (s : String) : String :=
  pyReplaceChar ' ' '-' (pyLower s)

/-- The spec's description of the underscored form: the name lowercased, with
every space replaced by an underscore. -/
def specUnderscoredName (s : String) : String :=
  pyReplaceChar ' ' '_' (pyLower s)

/-- Sample configuration used to exercise `create_project_folder`. -/
def sampleProject : PythonProject :=
  ⟨"My App", none, ["home", "Developer"], "app"⟩

/-- Sample process environment: every invocation exits 2 after producing
output on both streams. -/
def sampleExec : List String → FsPath → ProcOut :=
  fun _ _ => ⟨2, "boom", "crash"⟩

/-- Sample configuration used to exercise `_run`. -/
def sampleRunProject : PythonProject := ⟨"x", none, ["d"], "app"⟩

/-- Sample configuration used to exercise `initialize_uv`. -/
def sampleUvProject : PythonProject := ⟨"My App", some "A tool", ["d"], "app"⟩

instance {ε α : Type} [DecidableEq ε] [DecidableEq α] :
    DecidableEq (Except ε α) :=
  fun a b =>
    match a, b with
    | .ok x, .ok y =>
      if h : x = y then isTrue (by rw [h])
      else isFalse (by intro hc; injection hc; exact h (by assumption))
    | .error x, .error y =>
      if h : x = y then isTrue (by rw [h])
      else isFalse (by intro hc; injection hc; exact h (by assumption))
    | .ok _, .error _ => isFalse (by intro hc; exact Except.noConfusion hc)
    | .error _, .ok _ => isFalse (by intro hc; exact Except.noConfusion hc)

theorem pyCharLower_eq_space (c : Char) : pyCharLower c = ' ' ↔ c = ' ' := by
  unfold pyCharLower
  by_cases h : 65 ≤ c.toNat ∧ c.toNat ≤ 90
  · rw [if_pos h]
    constructor
    · intro hc
      exact absurd hc
        ((by decide : ∀ n, n < 91 → 65 ≤ n → Char.ofNat (n + 32) ≠ ' ') c.toNat
          (by omega) h.1)
    · intro hc
      subst hc
      simp at h
  · rw [if_neg h]

theorem pyCharLower_comm_replace (r c : Char) (hr : pyCharLower r = r) :
    pyCharLower (if c = ' ' then r else c) =
      (if pyCharLower c = ' ' then r else pyCharLower c) := by
  by_cases h : c = ' '
  · subst h
    rw [if_pos rfl, if_pos (by decide)]
    exact hr
  · rw [if_neg h, if_neg (fun hc => h ((pyCharLower_eq_space c).mp hc))]

theorem pyLower_replaceChar_comm (r : Char) (hr : pyCharLower r = r)
    (s : String) :
    pyLower (pyReplaceChar ' ' r s) = pyReplaceChar ' ' r (pyLower s) := by
  simp only [pyLower, pyReplaceChar, List.map_map]
  have hfun : (pyCharLower ∘ fun x => if x = ' ' then r else x)
      = ((fun x => if x = ' ' then r else x) ∘ pyCharLower) :=
    funext (fun c => pyCharLower_comm_replace r c hr)
  rw [hfun]

theorem readFile_writeFile (fs : FileMap) (p : FsPath) (c : String) :
    readFile (writeFile fs p c) p = some c := by
  rw [writeFile, readFile, List.find?_cons_of_pos _ (by simp)]
  rfl

/-- C2: for every name string, the derived hyphenated form equals the name
lowercased with every space replaced by a hyphen, and the derived underscored
form equals the name lowercased with every space replaced by an underscore. -/
theorem derived_name_forms (p : PythonProject) :
    p._dashed_name = specDashedName p.name ∧
    p._underscored_name = specUnderscoredName p.name :=
  ⟨pyLower_replaceChar_comm '-' (by decide) p.name,
    pyLower_replaceChar_comm '_' (by decide) p.name⟩

/-- C4: `update_readme` with name `"Foo Bar"` and no description writes a
README whose content is exactly `"# Foo Bar\n"`; with description
`"A tool"` it writes exactly `"# Foo Bar\nA tool\n"`. -/
theorem update_readme_contents (parent : FsPath) (ty : String) (fs : FileMap) :
    readFile (PythonProject.update_readme ⟨"Foo Bar", none, parent, ty⟩ fs)
        ((⟨"Foo Bar", none, parent, ty⟩ : PythonProject)._project_path
          ++ ["README.md"]) = some "# Foo Bar\n" ∧
    readFile
        (PythonProject.update_readme ⟨"Foo Bar", some "A tool", parent, ty⟩ fs)
        ((⟨"Foo Bar", some "A tool", parent, ty⟩ : PythonProject)._project_path
          ++ ["README.md"]) = some "# Foo Bar\nA tool\n" :=
  ⟨readFile_writeFile fs _ _, readFile_writeFile fs _ _⟩

/-- C6: `create_gitignore` writes a `.gitignore` whose content is a two-line
Mac-OS-specific block (the lines `# Mac OS` and `.DS_Store`, then a blank
separator line) followed by the fetched template content unmodified. -/
theorem create_gitignore_header (p : PythonProject) (fs : FileMap)
    (template : String) :
    readFile (p.create_gitignore fs template)
        (p._project_path ++ [".gitignore"])
      = some ("# Mac OS" ++ "\n" ++ ".DS_Store" ++ "\n" ++ "\n" ++ template) ∧
    ("# Mac OS").data.contains '\n' = false ∧
    (".DS_Store").data.contains '\n' = false :=
  ⟨readFile_writeFile fs _ _, by decide, by decide⟩

/-- C5: `configure_ruff` on an existing manifest with content `X` and a
template snippet `Y` leaves the manifest with content exactly `X ++ "\n" ++ Y`:
the snippet is appended, preceded by a newline. -/
theorem configure_ruff_appends (p : PythonProject) (fs : FileMap)
    (x y : String) (h : readFile fs p._pyproject_toml_path = some x) :
    readFile (p.configure_ruff fs y) p._pyproject_toml_path
      = some (x ++ "\n" ++ y) := by
  have hw : p.configure_ruff fs y
      = writeFile fs p._pyproject_toml_path (x ++ ("\n" ++ y)) := by
    rw [PythonProject.configure_ruff, PythonProject._append_to_file, h]
    rfl
  rw [hw, readFile_writeFile, String.append_assoc]

theorem configure_ruff_appends_witness :
    readFile [(["d", "proj", "pyproject.toml"], "X")]
        (⟨"Proj", none, ["d"], "app"⟩ : PythonProject)._pyproject_toml_path
      = some "X" ∧
    readFile
        ((⟨"Proj", none, ["d"], "app"⟩ : PythonProject).configure_ruff
          [(["d", "proj", "pyproject.toml"], "X")] "Y")
        (⟨"Proj", none, ["d"], "app"⟩ : PythonProject)._pyproject_toml_path
      = some ("X" ++ "\n" ++ "Y") :=
  ⟨by decide, configure_ruff_appends _ _ "X" "Y" (by decide)⟩

/-- C10: when the manifest file does not exist, `configure_ruff` does not
fail: the append-mode open creates it, and afterwards it contains exactly a
newline followed by the template snippet. -/
theorem configure_ruff_creates_manifest (p : PythonProject) (fs : FileMap)
    (y : String) (h : readFile fs p._pyproject_toml_path = none) :
    readFile (p.configure_ruff fs y) p._pyproject_toml_path
      = some ("\n" ++ y) := by
  have hw : p.configure_ruff fs y
      = writeFile fs p._pyproject_toml_path ("" ++ ("\n" ++ y)) := by
    rw [PythonProject.configure_ruff, PythonProject._append_to_file, h]
    rfl
  rw [hw, readFile_writeFile]
  simp

theorem configure_ruff_creates_manifest_witness :
    readFile []
        (⟨"Proj", none, ["d"], "app"⟩ : PythonProject)._pyproject_toml_path
      = none ∧
    readFile
        ((⟨"Proj", none, ["d"], "app"⟩ : PythonProject).configure_ruff [] "Y")
        (⟨"Proj", none, ["d"], "app"⟩ : PythonProject)._pyproject_toml_path
      = some ("\n" ++ "Y") :=
  ⟨by decide, configure_ruff_creates_manifest _ [] "Y" (by decide)⟩

theorem self_mem_ancestors (p : FsPath) (h : p ≠ []) : p ∈ ancestors p := by
  have hl : 0 < p.length := List.length_pos.mpr h
  refine List.mem_map.mpr ⟨p.length - 1, ?_, ?_⟩
  · exact List.mem_range.mpr (by omega)
  · rw [Nat.sub_add_cancel hl, List.take_length]

theorem project_path_ne_nil (p : PythonProject) : p._project_path ≠ [] := by
  rw [PythonProject._project_path]
  simp

theorem mem_afterMkdir (dirs : List FsPath) (p q : FsPath)
    (hq : q ∈ ancestors p) : q ∈ afterMkdir dirs p := by
  rw [afterMkdir]
  by_cases hd : q ∈ dirs
  · exact List.mem_append_left _ hd
  · exact List.mem_append_right _
      (List.mem_filter.mpr ⟨hq, by simpa using hd⟩)

/-- C7: `create_project_folder` is idempotent: on any ancestor-closed
directory state it succeeds, afterwards the project directory and all its
parent directories exist, and running it again on the resulting state
succeeds without changing it. -/
theorem create_project_folder_idempotent (p : PythonProject)
    (dirs : List FsPath) (hc : dirClosed dirs) :
    p.create_project_folder dirs = .ok (afterMkdir dirs p._project_path) ∧
    (∀ q ∈ ancestors p._project_path, q ∈ afterMkdir dirs p._project_path) ∧
    p.create_project_folder (afterMkdir dirs p._project_path)
      = .ok (afterMkdir dirs p._project_path) := by
  have hself : p._project_path ∈ ancestors p._project_path :=
    self_mem_ancestors _ (project_path_ne_nil p)
  refine ⟨?_, fun q hq => mem_afterMkdir dirs _ q hq, ?_⟩
  · rw [PythonProject.create_project_folder, mkdir]
    by_cases hm : p._project_path ∈ dirs
    · rw [if_pos hm, if_pos rfl]
      have hfil : (ancestors p._project_path).filter
          (fun q => decide (q ∉ dirs)) = [] := by
        refine List.filter_eq_nil_iff.mpr (fun q hq => ?_)
        simpa using hc _ hm q hq
      rw [afterMkdir, hfil, List.append_nil]
    · rw [if_neg hm, if_pos rfl]
  · rw [PythonProject.create_project_folder, mkdir,
      if_pos (mem_afterMkdir dirs _ _ hself), if_pos rfl]

theorem create_project_folder_idempotent_witness :
    dirClosed [] ∧
    (sampleProject.create_project_folder []
      = .ok (afterMkdir [] sampleProject._project_path) ∧
    (∀ q ∈ ancestors sampleProject._project_path,
      q ∈ afterMkdir [] sampleProject._project_path) ∧
    sampleProject.create_project_folder
        (afterMkdir [] sampleProject._project_path)
      = .ok (afterMkdir [] sampleProject._project_path)) :=
  ⟨fun q hq => absurd hq (List.not_mem_nil q),
    create_project_folder_idempotent sampleProject []
      (fun q hq => absurd hq (List.not_mem_nil q))⟩

theorem runSteps_fail_at (env : Step → Nat) (s : Step) (hs : env s ≠ 0) :
    ∀ pre post : List Step, (∀ t ∈ pre, env t = 0) →
      runSteps env (pre ++ s :: post) = (pre ++ [s], 1) := by
  intro pre
  induction pre with
  | nil =>
    intro post _
    rw [List.nil_append, runSteps, if_pos hs]
    rfl
  | cons a pre ih =>
    intro post hpre
    have ha : env a = 0 := hpre a (List.mem_cons_self a pre)
    rw [List.cons_append, runSteps, if_neg (by simp [ha]),
      ih post (fun t ht => hpre t (List.mem_cons_of_mem a ht))]
    rfl

/-- C1: if a step of the `__main__` sequence fails (its external tool exits
non-zero) while every earlier step succeeded, the run attempts exactly the
steps up to and including the failing one, attempts none of the later steps,
and the process exit code is non-zero. -/
theorem entry_sequence_fail_fast (env : Step → Nat) (pre post : List Step)
    (s : Step) (hsplit : mainSequence = pre ++ s :: post)
    (hpre : ∀ t ∈ pre, env t = 0) (hs : env s ≠ 0) :
    runMain env = (pre ++ [s], 1) ∧
    (runMain env).2 ≠ 0 ∧
    (∀ t ∈ post, t ∉ (runMain env).1) := by
  have hrun : runMain env = (pre ++ [s], 1) := by
    rw [runMain, hsplit]
    exact runSteps_fail_at env s hs pre post hpre
  refine ⟨hrun, by rw [hrun]; exact Nat.one_ne_zero, fun t ht => ?_⟩
  have hnd : (pre ++ s :: post).Nodup := by
    rw [← hsplit]
    decide
  rw [List.nodup_append] at hnd
  obtain ⟨h1, h2, h3⟩ := hnd
  rw [hrun]
  intro hmem
  rcases List.mem_append.mp hmem with hp | hs1
  · exact h3 hp (List.mem_cons_of_mem _ ht)
  · rw [List.mem_singleton] at hs1
    subst hs1
    exact (List.nodup_cons.mp h2).1 ht

theorem entry_sequence_fail_fast_witness :
    runMain (fun t => if t = Step.initGit then 1 else 0)
      = ([Step.initUv, Step.initGit], 1) ∧
    (runMain (fun t => if t = Step.initGit then 1 else 0)).2 ≠ 0 ∧
    (∀ t ∈ [Step.createGitignore, Step.installDevDeps,
        Step.configurePrecommit, Step.configureRuff, Step.updateReadme],
      t ∉ (runMain (fun t => if t = Step.initGit then 1 else 0)).1) :=
  entry_sequence_fail_fast (fun t => if t = Step.initGit then 1 else 0)
    [Step.initUv]
    [Step.createGitignore, Step.installDevDeps, Step.configurePrecommit,
      Step.configureRuff, Step.updateReadme]
    Step.initGit (by decide) (by decide) (by decide)

/-- C3: `_run` executes the process with all command elements coerced to
text, output suppressed (nothing captured) by default, in the project path
when no working directory is given; with exit-code checking enabled (the
default), a non-zero exit raises to the caller, and whatever was captured on
standard output and standard error is logged for diagnostics. -/
theorem run_helper_contract (p : PythonProject)
    (exec : List String → FsPath → ProcOut) (command : List RunArg) :
    (p._run exec command .devnull .devnull none true).argv
      = command.map runArgStr ∧
    (p._run exec command .devnull .devnull none true).usedCwd
      = p._project_path ∧
    (p._run exec command .devnull .devnull none true).capturedOut = none ∧
    (p._run exec command .devnull .devnull none true).capturedErr = none ∧
    (p._run exec command .devnull .devnull none true).raised
      = ((exec (command.map runArgStr) p._project_path).exitCode != 0) ∧
    ((exec (command.map runArgStr) p._project_path).exitCode ≠ 0 →
      (p._run exec command .pipe .pipe none true).raised = true ∧
      ((exec (command.map runArgStr) p._project_path).outText ≠ "" →
        ("Standard output: "
            ++ (exec (command.map runArgStr) p._project_path).outText)
          ∈ (p._run exec command .pipe .pipe none true).logged) ∧
      ((exec (command.map runArgStr) p._project_path).errText ≠ "" →
        ("Standard error: "
            ++ (exec (command.map runArgStr) p._project_path).errText)
          ∈ (p._run exec command .pipe .pipe none true).logged)) := by
  refine ⟨rfl, rfl, rfl, rfl, rfl, fun h => ⟨?_, fun houts => ?_, fun herrs => ?_⟩⟩
  · simp only [PythonProject._run, Option.getD_none, Bool.true_and,
      bne_iff_ne, ne_eq]
    exact h
  · simp only [PythonProject._run, captureStream, pyTruthyOptStr,
      Option.getD_none, Option.getD_some, Bool.true_and]
    simp [h, houts]
  · simp only [PythonProject._run, captureStream, pyTruthyOptStr,
      Option.getD_none, Option.getD_some, Bool.true_and]
    simp [h, herrs]

theorem run_helper_contract_witness :
    (sampleRunProject._run sampleExec [Sum.inl "git", Sum.inl "init"]
        .devnull .devnull none true).capturedOut = none ∧
    (sampleRunProject._run sampleExec [Sum.inl "git", Sum.inl "init"]
        .pipe .pipe none true).raised = true ∧
    ("Standard output: " ++ "boom")
      ∈ (sampleRunProject._run sampleExec [Sum.inl "git", Sum.inl "init"]
          .pipe .pipe none true).logged ∧
    ("Standard error: " ++ "crash")
      ∈ (sampleRunProject._run sampleExec [Sum.inl "git", Sum.inl "init"]
          .pipe .pipe none true).logged := by
  have h := run_helper_contract sampleRunProject sampleExec
    [Sum.inl "git", Sum.inl "init"]
  have h6 := h.2.2.2.2.2 (by decide)
  exact ⟨h.2.2.1, h6.1, h6.2.1 (by decide), h6.2.2 (by decide)⟩

/-- C8 counterexample: with a present but empty description the claimed
"exactly when a description is present" fails: the description flag is not
passed to the dependency-manager init command. -/
theorem initialize_uv_description_present_but_dropped :
    (PythonProject.mk "x" (some "") ["d"] "app").description.isSome = true ∧
    "--description"
      ∉ (PythonProject.mk "x" (some "") ["d"] "app").initialize_uv_command := by
  decide

/-- C8 (amended): `initialize_uv` runs in the parent of the project path,
and for a `type` among the three allowed values its argument list is the
dashed name, the author-detection flag `--author-from git`, the mode flag
`--{type}`, and the description exactly when the description is present and
non-empty. -/
theorem initialize_uv_command_shape (p : PythonProject)
    (exec : List String → FsPath → ProcOut)
    (hty : p.type = "app" ∨ p.type = "package" ∨ p.type = "library") :
    (p.initialize_uv exec).usedCwd = p.parent_path ∧
    (p.initialize_uv exec).argv = p.initialize_uv_command ∧
    (∀ d, p.description = some d → d ≠ "" →
      p.initialize_uv_command
        = ["uv", "init", p._dashed_name, "--author-from", "git",
            "--" ++ p.type, "--description", d]) ∧
    ((p.description = none ∨ p.description = some "") →
      p.initialize_uv_command
        = ["uv", "init", p._dashed_name, "--author-from", "git",
            "--" ++ p.type]) := by
  have hne : p.type ≠ "" := by
    rcases hty with h | h | h <;> rw [h] <;> decide
  refine ⟨?_, ?_, ?_, ?_⟩
  · show (some p._project_path.dropLast).getD p._project_path = p.parent_path
    rw [Option.getD_some, PythonProject._project_path, List.dropLast_concat]
  · show (p.initialize_uv_command.map Sum.inl).map runArgStr
      = p.initialize_uv_command
    rw [List.map_map]
    have hco : (runArgStr ∘ Sum.inl : String → String) = id :=
      funext (fun s => rfl)
    rw [hco, List.map_id]
  · intro d hd hd2
    rw [PythonProject.initialize_uv_command, hd, if_neg hne]
    simp [pyTruthyOptStr, hd2]
  · intro hdesc
    rcases hdesc with hd | hd <;>
      rw [PythonProject.initialize_uv_command, hd, if_neg hne] <;>
      simp [pyTruthyOptStr]

theorem initialize_uv_command_shape_witness :
    (sampleUvProject.initialize_uv sampleExec).usedCwd = ["d"] ∧
    sampleUvProject.initialize_uv_command
      = ["uv", "init", "my-app", "--author-from", "git", "--app",
          "--description", "A tool"] := by
  have h := initialize_uv_command_shape sampleUvProject sampleExec (Or.inl rfl)
  refine ⟨?_, ?_⟩
  · rw [h.1]
    rfl
  · rw [h.2.2.1 "A tool" rfl (by decide)]
    decide

/-- C9 counterexample: the boundary accepts an input whose name is the empty
string and whose type is none of the three allowed values; the constructed
configuration violates both claimed invariants. -/
theorem parse_accepts_empty_name_and_unknown_type :
    parseCliArgs ⟨some "", none, none, some "bogus"⟩
      = .ok ⟨"", none, ["~", "Developer"], "bogus"⟩ ∧
    (PythonProject.mk "" none ["~", "Developer"] "bogus").name = "" ∧
    (PythonProject.mk "" none ["~", "Developer"] "bogus").type ≠ "app" ∧
    (PythonProject.mk "" none ["~", "Developer"] "bogus").type ≠ "package" ∧
    (PythonProject.mk "" none ["~", "Developer"] "bogus").type ≠ "library" := by
  decide

/-- C9 (amended): the argument-parsing boundary rejects an input exactly when
`name` is missing; when `name` is provided — empty or not — the configuration
is constructed with the given fields, `type` defaulting to `"app"` but
otherwise taken as given, with no restriction to the three allowed values. -/
theorem parse_rejects_only_missing_name (a : RawArgs) :
    ((∃ e, parseCliArgs a = .error e) ↔ a.name = none) ∧
    (∀ n, a.name = some n →
      parseCliArgs a
        = .ok ⟨n, a.description, a.parent_path.getD ["~", "Developer"],
            a.type.getD "app"⟩) := by
  constructor
  · constructor
    · intro he
      obtain ⟨e, he⟩ := he
      cases hn : a.name with
      | none => rfl
      | some n =>
        simp only [parseCliArgs, hn] at he
        exact Except.noConfusion he
    · intro hn
      exact ⟨"the following arguments are required: name",
        by simp only [parseCliArgs, hn]⟩
  · intro n hn
    simp only [parseCliArgs, hn]

theorem parse_rejects_only_missing_name_witness :
    parseCliArgs ⟨some "proj", some "d", none, none⟩
      = .ok ⟨"proj", some "d", ["~", "Developer"], "app"⟩ :=
  (parse_rejects_only_missing_name ⟨some "proj", some "d", none, none⟩).2
    "proj" rfl

end ProjectInit
